import Mathlib

/-!
Shallow embedding of the dependency-tree change-impact analyzer
(`analyzeProject` / `buildDependencyTree` / `determineAffectingChanges` /
`determineImpactReason` together with the data model of `types.ts`).

External collaborators that are not part of the analyzed core
(`isJavaScriptFile`, `shouldIgnoreFile`, `resolveImportPath` from `./utils`,
`parseFile` from `./parser`, and `fs.access`) are modelled as components of
an environment record `Env`; the fixed `rootDir` argument of
`resolveImportPath` is folded into the environment, since it is the constant
`process.cwd()` for a whole run.  The JavaScript `Set<string>` values are
modelled as lists in insertion order (`Array.from` iterates insertion
order), and the shared mutable `visited` set is modelled by explicit state
passing: every call receives the current visited list and returns the
extended one.  Concurrent fan-out over children is modelled as the
sequential left-to-right schedule.
-/

/-- The change kinds of `FileChange.changeType` in `types.ts`. -/
inductive ChangeType where
  | add
  | modify
  | delete
deriving DecidableEq, Repr

/-- The string each change kind is written as in the source
(template literals interpolate these). -/
def ChangeType.str : ChangeType → String
  | .add => "add"
  | .modify => "modify"
  | .delete => "delete"

/-- `FileChange` of `types.ts`: `changedFile`, `changeType`,
optional `modifiedExports`. -/
structure FileChange where
  changedFile : String
  changeType : ChangeType
  modifiedExports : Option (List String)
deriving DecidableEq, Repr

/-- `ImportInfo` of `types.ts`: raw `source` specifier and the set
of imported `specifiers` (a `Set<string>`, modelled as a list in
insertion order). -/
structure ImportInfo where
  source : String
  specifiers : List String
deriving DecidableEq, Repr

/-- `FileNode.type` values: the source uses the literals `'js' | 'asset'`. -/
inductive FileType where
  | js
  | asset
deriving DecidableEq, Repr

/-- `FileNode` of `types.ts`.  Optional fields stay `none` unless the code
assigns them; `children` is an ordered list. -/
inductive FileNode where
  | mk
    (file : String)
    (type : FileType)
    (imports : Option (List ImportInfo))
    (exports : Option (List String))
    (isAffected : Option Bool)
    (changeType : Option ChangeType)
    (reason : Option String)
    (children : List FileNode)
deriving Repr

def FileNode.file : FileNode → String
  | .mk f _ _ _ _ _ _ _ => f

def FileNode.type : FileNode → FileType
  | .mk _ t _ _ _ _ _ _ => t

def FileNode.imports : FileNode → Option (List ImportInfo)
  | .mk _ _ i _ _ _ _ _ => i

def FileNode.exports : FileNode → Option (List String)
  | .mk _ _ _ e _ _ _ _ => e

def FileNode.isAffected : FileNode → Option Bool
  | .mk _ _ _ _ a _ _ _ => a

def FileNode.changeType : FileNode → Option ChangeType
  | .mk _ _ _ _ _ c _ _ => c

def FileNode.reason : FileNode → Option String
  | .mk _ _ _ _ _ _ r _ => r

def FileNode.children : FileNode → List FileNode
  | .mk _ _ _ _ _ _ _ cs => cs

/-- The interface record of `AffectingImport` (local to the analyzer
module): the matching change together with the affected specifiers. -/
structure AffectingImport where
  change : FileChange
  importedSpecifiers : List String
deriving DecidableEq, Repr

/-- The environment of external collaborators the analyzer calls.
`accessible` is the set of paths for which `fs.access` succeeds;
`isJs` is `isJavaScriptFile`; `shouldIgnore` is `shouldIgnoreFile`;
`resolve` is `resolveImportPath` with `rootDir` folded in; `parse` is
`parseFile`, returning `none` on a parse error and otherwise the
ordered imports and the export set. -/
structure Env where
  accessible : List String
  isJs : String → Bool
  shouldIgnore : String → Bool
  resolve : String → String → Option String
  parse : String → Option (List ImportInfo × List String)

/-- `path.basename`: the final path component, the suffix after the last
path separator. -/
def basename (p : String) : String :=
  String.mk ((p.data.reverse.takeWhile (fun ch => ch != '/')).reverse)

/-- Truthiness of `change.modifiedExports?.length`: the optional list is
present and non-empty. -/
def FileChange.hasMods (c : FileChange) : Bool :=
  match c.modifiedExports with
  | some l => !l.isEmpty
  | none => false

/-- `change.modifiedExports` with absence read as the empty list (the code
only consults it under `hasMods`). -/
def FileChange.mods (c : FileChange) : List String :=
  c.modifiedExports.getD []

/-- `determineAffectingChanges`: for every change (outer `for` loop, Change
Set order) and every import (inner `forEach`, declaration order), resolve
the import specifier; on a match with the changed file, push an entry —
for a `modify` carrying a non-empty `modifiedExports` only if the
intersection of the import specifiers with the modified exports is
non-empty (recording that intersection), otherwise unconditionally with
the full specifier set.  The `push` calls are modelled by appending to the
accumulator. -/
def determineAffectingChanges (env : Env) (filePath : String)
    (changes : List FileChange) (imports : List ImportInfo) :
    List AffectingImport :=
  changes.foldl (fun acc change =>
    imports.foldl (fun acc2 imp =>
      match env.resolve filePath imp.source with
      | some resolvedSource =>
        if resolvedSource = change.changedFile then
          if change.changeType = ChangeType.modify ∧ change.hasMods then
            let affectedSpecifiers :=
              imp.specifiers.filter (fun spec => spec ∈ change.mods)
            if affectedSpecifiers.isEmpty then acc2
            else acc2 ++ [⟨change, affectedSpecifiers⟩]
          else acc2 ++ [⟨change, imp.specifiers⟩]
        else acc2
      | none => acc2) acc) []

/-- The reason line `determineImpactReason` pushes for one affecting entry
(the `switch` on the change kind, with the template literals spelled
out). -/
def reasonLine (e : AffectingImport) : String :=
  let fileName := basename e.change.changedFile
  match e.change.changeType with
  | .delete => "Imported file \x27" ++ fileName ++ "\x27 was deleted"
  | .add => "New file \x27" ++ fileName ++ "\x27 was added that is imported"
  | .modify =>
    if e.change.hasMods ∧ !e.importedSpecifiers.isEmpty then
      let sep := ", "
      "Modified exports from \x27" ++ fileName ++ "\x27: " ++
        String.intercalate sep e.importedSpecifiers
    else "File \x27" ++ fileName ++ "\x27 content was modified"

/-- `determineImpactReason`: push one line per affecting entry in order,
then `reasons.join(backslash-n)`.  Its `filePath` and `imports` parameters
are unused in the source body and kept for fidelity. -/
def determineImpactReason (filePath : String)
    (affectingChanges : List AffectingImport) (imports : List ImportInfo) :
    String :=
  let _ := filePath
  let _ := imports
  let nl := "\n"
  let reasons := affectingChanges.foldl (fun acc e => acc ++ [reasonLine e]) []
  String.intercalate nl reasons

/-- The node returned at line 36 of the source when `visited.has(filePath)`:
same `file` and extension-classified `type`, empty `children`, every
optional field absent. -/
def stubNode (env : Env) (filePath : String) : FileNode :=
  FileNode.mk filePath (if env.isJs filePath then FileType.js else FileType.asset)
    none none none none none []

/-- The node returned from the outer `catch` when `fs.access(filePath)`
fails mid-traversal: an `asset` leaf with no annotations. -/
def inaccessibleNode (filePath : String) : FileNode :=
  FileNode.mk filePath FileType.asset none none none none none []

mutual

/-- `buildDependencyTree`: visited check, mark, access check, change-set
stamp, parse-classify-recurse for unignored js files, asset passthrough.
The shared mutable `visited` set is threaded: the second component of the
result is the visited list after the call.  The source looks the change up
twice (lines 56 and 100) with the same pure predicate; the single
`change0` here is that common lookup. -/
def buildDependencyTree (env : Env) (changes : List FileChange)
    (filePath : String) (visited : List String) : FileNode × List String :=
  if hvis : filePath ∈ visited then
    (stubNode env filePath, visited)
  else
    let visited1 := filePath :: visited
    if hacc : filePath ∈ env.accessible then
      let nodeType := if env.isJs filePath then FileType.js else FileType.asset
      let change0 := changes.find? (fun c => c.changedFile == filePath)
      let ct0 := change0.map FileChange.changeType
      let reason0 := change0.map
        (fun c => "File was " ++ c.changeType.str ++ "d")
      if nodeType = FileType.js ∧ env.shouldIgnore filePath = false then
        match env.parse filePath with
        | some (imports, exports) =>
          let affectingChanges :=
            determineAffectingChanges env filePath changes imports
          let isAff := if affectingChanges.isEmpty then none else some true
          let reason1 :=
            if affectingChanges.isEmpty then reason0
            else some (determineImpactReason filePath affectingChanges imports)
          let (children, visited2) :=
            buildChildren env changes filePath imports visited1
          (FileNode.mk filePath nodeType (some imports) (some exports)
            isAff ct0 reason1 children, visited2)
        | none =>
          (FileNode.mk filePath nodeType none none none ct0 reason0 [],
            visited1)
      else if nodeType = FileType.asset then
        match change0 with
        | some c =>
          (FileNode.mk filePath nodeType none none (some true) (some c.changeType)
            (some ("Asset file was " ++ c.changeType.str ++ "d")) [], visited1)
        | none =>
          (FileNode.mk filePath nodeType none none none ct0 reason0 [],
            visited1)
      else
        (FileNode.mk filePath nodeType none none none ct0 reason0 [],
          visited1)
    else
      (inaccessibleNode filePath, visited1)
termination_by ((env.accessible.toFinset \ visited.toFinset).card, 0)
decreasing_by
  apply Prod.Lex.left
  apply Finset.card_lt_card
  have herase : env.accessible.toFinset \ (filePath :: visited).toFinset =
      (env.accessible.toFinset \ visited.toFinset).erase filePath := by
    ext x
    simp only [List.toFinset_cons, Finset.mem_sdiff, Finset.mem_insert,
      Finset.mem_erase, List.mem_toFinset]
    tauto
  rw [herase]
  apply Finset.erase_ssubset
  simp only [Finset.mem_sdiff, List.mem_toFinset]
  exact ⟨hacc, hvis⟩

/-- The `imports.map` over child promises at lines 80–95, joined in import
declaration order: resolve each specifier, skip unresolved ones and ones
whose resolved path fails the access check, recurse into the rest.  The
shared visited set is threaded left to right; appending keeps the incoming
visited list inside the threaded one. -/
def buildChildren (env : Env) (changes : List FileChange)
    (fromFile : String) (imports : List ImportInfo) (visited : List String) :
    List FileNode × List String :=
  match imports with
  | [] => ([], visited)
  | imp :: rest =>
    match env.resolve fromFile imp.source with
    | some resolvedPath =>
      if resolvedPath ∈ env.accessible then
        let (child, visitedA) :=
          buildDependencyTree env changes resolvedPath visited
        let (others, visitedB) :=
          buildChildren env changes fromFile rest (visitedA ++ visited)
        (child :: others, visitedB)
      else
        buildChildren env changes fromFile rest visited
    | none => buildChildren env changes fromFile rest visited
termination_by ((env.accessible.toFinset \ visited.toFinset).card, imports.length + 1)
decreasing_by
  · apply Prod.Lex.right
    simp only [List.length_cons]
    omega
  · rcases Nat.lt_or_ge
      ((env.accessible.toFinset \ (visitedA ++ visited).toFinset).card)
      ((env.accessible.toFinset \ visited.toFinset).card) with hlt | hge
    · exact Prod.Lex.left _ _ hlt
    · have hle : (env.accessible.toFinset \ (visitedA ++ visited).toFinset).card ≤
          (env.accessible.toFinset \ visited.toFinset).card := by
        apply Finset.card_le_card
        intro x hx
        simp only [List.toFinset_append, Finset.mem_sdiff, Finset.mem_union] at hx ⊢
        exact ⟨hx.1, fun hm => hx.2 (Or.inr hm)⟩
      have heq : (env.accessible.toFinset \ (visitedA ++ visited).toFinset).card =
          (env.accessible.toFinset \ visited.toFinset).card :=
        Nat.le_antisymm hle hge
      rw [heq]
      apply Prod.Lex.right
      simp only [List.length_cons]
      omega
  · apply Prod.Lex.right
    simp only [List.length_cons]
    omega

end

/-- `analyzeProject`: check the entry file is accessible, then build the
tree with a fresh visited set; an inaccessible entry is the error path. -/
def analyzeProject (env : Env) (entryFile : String)
    (changes : List FileChange) : Except String FileNode :=
  if entryFile ∈ env.accessible then
    Except.ok (buildDependencyTree env changes entryFile []).1
  else
    Except.error "Failed to analyze project"

/-! ### Branch characterizations of the tree builder -/

/-- Revisited file: the visited check short-circuits to the stub. -/
theorem bdt_visited (env : Env) (changes : List FileChange) (filePath : String)
    (visited : List String) (hvis : filePath ∈ visited) :
    buildDependencyTree env changes filePath visited =
      (stubNode env filePath, visited) := by
  unfold buildDependencyTree
  simp [hvis]

/-- Fresh but inaccessible file: the asset leaf from the outer catch. -/
theorem bdt_inaccessible (env : Env) (changes : List FileChange)
    (filePath : String) (visited : List String) (hvis : filePath ∉ visited)
    (hacc : filePath ∉ env.accessible) :
    buildDependencyTree env changes filePath visited =
      (inaccessibleNode filePath, filePath :: visited) := by
  unfold buildDependencyTree
  simp [hvis, hacc]

/-- Fresh accessible js file, not ignored, parse succeeds: the fully
populated node. -/
theorem bdt_parsed (env : Env) (changes : List FileChange) (filePath : String)
    (visited : List String) (imports : List ImportInfo) (exports : List String)
    (hvis : filePath ∉ visited) (hacc : filePath ∈ env.accessible)
    (hjs : env.isJs filePath = true) (hig : env.shouldIgnore filePath = false)
    (hp : env.parse filePath = some (imports, exports)) :
    buildDependencyTree env changes filePath visited =
      (FileNode.mk filePath FileType.js (some imports) (some exports)
        (if (determineAffectingChanges env filePath changes imports).isEmpty
          then none else some true)
        ((changes.find? (fun c => c.changedFile == filePath)).map
          FileChange.changeType)
        (if (determineAffectingChanges env filePath changes imports).isEmpty
          then (changes.find? (fun c => c.changedFile == filePath)).map
            (fun c => "File was " ++ c.changeType.str ++ "d")
          else some (determineImpactReason filePath
            (determineAffectingChanges env filePath changes imports) imports))
        (buildChildren env changes filePath imports (filePath :: visited)).1,
       (buildChildren env changes filePath imports (filePath :: visited)).2) := by
  unfold buildDependencyTree
  simp [hvis, hacc, hjs, hig, hp]

/-- Fresh accessible js file, not ignored, parse fails: the degraded node
without imports, exports or children; the change-set stamp survives. -/
theorem bdt_parse_failed (env : Env) (changes : List FileChange)
    (filePath : String) (visited : List String) (hvis : filePath ∉ visited)
    (hacc : filePath ∈ env.accessible) (hjs : env.isJs filePath = true)
    (hig : env.shouldIgnore filePath = false)
    (hp : env.parse filePath = none) :
    buildDependencyTree env changes filePath visited =
      (FileNode.mk filePath FileType.js none none none
        ((changes.find? (fun c => c.changedFile == filePath)).map
          FileChange.changeType)
        ((changes.find? (fun c => c.changedFile == filePath)).map
          (fun c => "File was " ++ c.changeType.str ++ "d"))
        [], filePath :: visited) := by
  unfold buildDependencyTree
  simp [hvis, hacc, hjs, hig, hp]

/-- Fresh accessible asset matching a change: affected with the generic
asset reason, keeping the changeType stamp, no children. -/
theorem bdt_asset_changed (env : Env) (changes : List FileChange)
    (filePath : String) (visited : List String) (ch : FileChange)
    (hvis : filePath ∉ visited) (hacc : filePath ∈ env.accessible)
    (hjs : env.isJs filePath = false)
    (hfind : changes.find? (fun c => c.changedFile == filePath) = some ch) :
    buildDependencyTree env changes filePath visited =
      (FileNode.mk filePath FileType.asset none none (some true)
        (some ch.changeType)
        (some ("Asset file was " ++ ch.changeType.str ++ "d")) [],
       filePath :: visited) := by
  unfold buildDependencyTree
  simp [hvis, hacc, hjs, hfind]

/-- Fresh accessible asset matching no change: a bare leaf. -/
theorem bdt_asset_unchanged (env : Env) (changes : List FileChange)
    (filePath : String) (visited : List String)
    (hvis : filePath ∉ visited) (hacc : filePath ∈ env.accessible)
    (hjs : env.isJs filePath = false)
    (hfind : changes.find? (fun c => c.changedFile == filePath) = none) :
    buildDependencyTree env changes filePath visited =
      (FileNode.mk filePath FileType.asset none none none none none [],
       filePath :: visited) := by
  unfold buildDependencyTree
  simp [hvis, hacc, hjs, hfind]

/-- Fresh accessible js file on the ignore list: no extraction, no
children, only the change-set stamp. -/
theorem bdt_ignored (env : Env) (changes : List FileChange)
    (filePath : String) (visited : List String) (hvis : filePath ∉ visited)
    (hacc : filePath ∈ env.accessible) (hjs : env.isJs filePath = true)
    (hig : env.shouldIgnore filePath = true) :
    buildDependencyTree env changes filePath visited =
      (FileNode.mk filePath FileType.js none none none
        ((changes.find? (fun c => c.changedFile == filePath)).map
          FileChange.changeType)
        ((changes.find? (fun c => c.changedFile == filePath)).map
          (fun c => "File was " ++ c.changeType.str ++ "d"))
        [], filePath :: visited) := by
  unfold buildDependencyTree
  simp [hvis, hacc, hjs, hig]

/-- Every node the builder returns carries the path it was called with. -/
theorem bdt_file (env : Env) (changes : List FileChange) (filePath : String)
    (visited : List String) :
    (buildDependencyTree env changes filePath visited).1.file = filePath := by
  by_cases hvis : filePath ∈ visited
  · rw [bdt_visited env changes filePath visited hvis]
    simp [stubNode, FileNode.file]
  · by_cases hacc : filePath ∈ env.accessible
    · rcases hjs : env.isJs filePath with _ | _
      · rcases hfind : changes.find? (fun c => c.changedFile == filePath) with _ | ch
        · rw [bdt_asset_unchanged env changes filePath visited hvis hacc hjs hfind]
          simp [FileNode.file]
        · rw [bdt_asset_changed env changes filePath visited ch hvis hacc hjs hfind]
          simp [FileNode.file]
      · rcases hig : env.shouldIgnore filePath with _ | _
        · rcases hp : env.parse filePath with _ | ⟨imports, exports⟩
          · rw [bdt_parse_failed env changes filePath visited hvis hacc hjs hig hp]
            simp [FileNode.file]
          · rw [bdt_parsed env changes filePath visited imports exports hvis hacc hjs hig hp]
            simp [FileNode.file]
        · rw [bdt_ignored env changes filePath visited hvis hacc hjs hig]
          simp [FileNode.file]
    · rw [bdt_inaccessible env changes filePath visited hvis hacc]
      simp [inaccessibleNode, FileNode.file]

/-- The one-import step of the child collection: resolve, keep the import
only when the resolved path is accessible. -/
def childTarget (env : Env) (fromFile : String) (imp : ImportInfo) :
    Option String :=
  match env.resolve fromFile imp.source with
  | some r => if r ∈ env.accessible then some r else none
  | none => none

/-- The files of the children the builder collects are exactly the
resolved accessible import targets, in import declaration order. -/
theorem buildChildren_files (env : Env) (changes : List FileChange)
    (fromFile : String) (imports : List ImportInfo) (visited : List String) :
    (buildChildren env changes fromFile imports visited).1.map FileNode.file =
      imports.filterMap (childTarget env fromFile) := by
  induction imports generalizing visited with
  | nil => simp [buildChildren]
  | cons imp rest ih =>
    rcases hres : env.resolve fromFile imp.source with _ | r
    · rw [buildChildren]
      simp [hres, childTarget, ih]
    · by_cases haccr : r ∈ env.accessible
      · rw [buildChildren]
        simp only [hres, haccr, if_pos]
        rcases hb : buildDependencyTree env changes r visited with ⟨child, visitedA⟩
        have hfile : child.file = r := by
          have := bdt_file env changes r visited
          rw [hb] at this
          exact this
        simp [childTarget, hres, haccr, hfile, ih]
      · rw [buildChildren]
        simp [hres, haccr, childTarget, ih]

/-! ### Shape of the classifier and the reason formatter -/

/-- The per-(change, import) decision of `determineAffectingChanges`,
as a single optional entry. -/
def classifyEntry (env : Env) (filePath : String) (change : FileChange)
    (imp : ImportInfo) : Option AffectingImport :=
  match env.resolve filePath imp.source with
  | some resolvedSource =>
    if resolvedSource = change.changedFile then
      if change.changeType = ChangeType.modify ∧ change.hasMods then
        let affectedSpecifiers :=
          imp.specifiers.filter (fun spec => spec ∈ change.mods)
        if affectedSpecifiers.isEmpty then none
        else some ⟨change, affectedSpecifiers⟩
      else some ⟨change, imp.specifiers⟩
    else none
  | none => none

/-- A fold whose step appends the optional image of each element collects
the accumulator followed by the `filterMap`. -/
theorem foldl_push_filterMap {α β : Type} (g : β → Option α) (l : List β)
    (step : List α → β → List α)
    (hstep : ∀ acc x, step acc x =
      match g x with
      | some y => acc ++ [y]
      | none => acc) :
    ∀ acc, l.foldl step acc = acc ++ l.filterMap g := by
  induction l with
  | nil => intro acc; simp
  | cons x rest ih =>
    intro acc
    rw [List.foldl_cons, List.filterMap_cons, hstep]
    rcases hg : g x with _ | y
    · simp [hg, ih]
    · simp [hg, ih]

/-- A fold whose step appends a block per element collects the accumulator
followed by the `flatMap`. -/
theorem foldl_push_flatMap {α β : Type} (g : β → List α) (l : List β)
    (step : List α → β → List α)
    (hstep : ∀ acc x, step acc x = acc ++ g x) :
    ∀ acc, l.foldl step acc = acc ++ l.flatMap g := by
  induction l with
  | nil => intro acc; simp
  | cons x rest ih =>
    intro acc
    rw [List.foldl_cons, hstep]
    simp [ih]

/-- A fold whose step appends one image per element collects the
accumulator followed by the `map`. -/
theorem foldl_push_map {α β : Type} (g : β → α) (l : List β)
    (step : List α → β → List α)
    (hstep : ∀ acc x, step acc x = acc ++ [g x]) :
    ∀ acc, l.foldl step acc = acc ++ l.map g := by
  induction l with
  | nil => intro acc; simp
  | cons x rest ih =>
    intro acc
    rw [List.foldl_cons, hstep]
    simp [ih]

/-- The classifier produces, for every change in Change-Set order, one
entry per matching import in declaration order: the nested push loops
equal a `flatMap` of `filterMap`s. -/
theorem affecting_eq_flatMap (env : Env) (filePath : String)
    (changes : List FileChange) (imports : List ImportInfo) :
    determineAffectingChanges env filePath changes imports =
      changes.flatMap
        (fun change => imports.filterMap (classifyEntry env filePath change)) := by
  unfold determineAffectingChanges
  rw [foldl_push_flatMap
    (fun change => imports.filterMap (classifyEntry env filePath change))
    changes _ ?hstep]
  · simp
  · intro acc change
    rw [foldl_push_filterMap (classifyEntry env filePath change) imports _ ?hinner]
    intro acc2 imp
    unfold classifyEntry
    rcases hres : env.resolve filePath imp.source with _ | rs
    · simp
    · by_cases heq : rs = change.changedFile
      · by_cases hmod : change.changeType = ChangeType.modify ∧ change.hasMods
        · by_cases hemp :
            (imp.specifiers.filter (fun spec => spec ∈ change.mods)).isEmpty
          · simp [heq, hmod, hemp]
          · simp [heq, hmod, hemp]
        · simp [heq, hmod]
      · simp [heq]

/-- The formatter joins one `reasonLine` per entry, in entry order, with
newlines. -/
theorem impactReason_eq_join (filePath : String)
    (affectingChanges : List AffectingImport) (imports : List ImportInfo) :
    determineImpactReason filePath affectingChanges imports =
      String.intercalate "\n" (affectingChanges.map reasonLine) := by
  unfold determineImpactReason
  rw [foldl_push_map reasonLine affectingChanges _ (fun acc e => rfl)]
  simp

/-! ### The affected-flag invariant -/

mutual

/-- No node of the tree carries an explicit `isAffected = false`. -/
def noFalseAffected : FileNode → Bool
  | .mk _ _ _ _ aff _ _ children =>
    (aff != some false) && noFalseAffectedList children

def noFalseAffectedList : List FileNode → Bool
  | [] => true
  | c :: rest => noFalseAffected c && noFalseAffectedList rest

end

theorem noFalseAffectedList_iff (l : List FileNode) :
    noFalseAffectedList l = true ↔ ∀ c ∈ l, noFalseAffected c = true := by
  induction l with
  | nil => simp [noFalseAffectedList]
  | cons c rest ih => simp [noFalseAffectedList, ih]


/-- Every node the builder produces — at any visited state — satisfies the
invariant: `isAffected` is never `some false`. -/
theorem bdt_noFalseAffected (env : Env) (changes : List FileChange) :
    ∀ (filePath : String) (visited : List String),
      noFalseAffected (buildDependencyTree env changes filePath visited).1 = true := by
  refine buildDependencyTree.induct env changes
    (fun filePath visited =>
      noFalseAffected (buildDependencyTree env changes filePath visited).1 = true)
    (fun fromFile imports visited =>
      ∀ c ∈ (buildChildren env changes fromFile imports visited).1,
        noFalseAffected c = true)
    ?vis ?parsed ?parsefail ?assetchg ?assetnochg ?impossible ?inacc
    ?cnil ?cacc ?cinacc ?cnores
  · intro filePath visited hvis
    rw [bdt_visited env changes filePath visited hvis]
    simp [stubNode, noFalseAffected, noFalseAffectedList]
  · intro filePath visited hvis _ hacc _ hcond imports exports hp children visited2
      hbc ih
    by_cases hjs : env.isJs filePath = true
    · have hig : env.shouldIgnore filePath = false := hcond.2
      rw [bdt_parsed env changes filePath visited imports exports hvis hacc hjs hig hp]
      simp only [noFalseAffected, Bool.and_eq_true, noFalseAffectedList_iff]
      constructor
      · by_cases hemp : (determineAffectingChanges env filePath changes imports).isEmpty
        · simp [hemp]
        · simp [hemp]
      · intro c hc
        exact ih c hc
    · exfalso
      have hnt : (if h : env.isJs filePath = true then FileType.js
          else FileType.asset) = FileType.js := hcond.1
      simp [hjs] at hnt
  · intro filePath visited hvis hacc _ hcond hp
    by_cases hjs : env.isJs filePath = true
    · have hig : env.shouldIgnore filePath = false := hcond.2
      rw [bdt_parse_failed env changes filePath visited hvis hacc hjs hig hp]
      rcases hfind : changes.find? (fun c => c.changedFile == filePath) with _ | ch
      · simp [hfind, noFalseAffected, noFalseAffectedList]
      · simp [hfind, noFalseAffected, noFalseAffectedList]
    · exfalso
      have hnt : (if h : env.isJs filePath = true then FileType.js
          else FileType.asset) = FileType.js := hcond.1
      simp [hjs] at hnt
  · intro filePath visited hvis hacc _ _ hncond hasset ch hfind
    have hjs : env.isJs filePath = false := by
      by_cases hjs : env.isJs filePath = true
      · have h2 : (if h : env.isJs filePath = true then FileType.js
            else FileType.asset) = FileType.asset := hasset
        simp [hjs] at h2
      · simpa using hjs
    have hfind2 : changes.find? (fun c => c.changedFile == filePath) = some ch := hfind
    rw [bdt_asset_changed env changes filePath visited ch hvis hacc hjs hfind2]
    simp [noFalseAffected, noFalseAffectedList]
  · intro filePath visited hvis hacc _ _ hncond hasset hfind
    have hjs : env.isJs filePath = false := by
      by_cases hjs : env.isJs filePath = true
      · have h2 : (if h : env.isJs filePath = true then FileType.js
            else FileType.asset) = FileType.asset := hasset
        simp [hjs] at h2
      · simpa using hjs
    have hfind2 : changes.find? (fun c => c.changedFile == filePath) = none := hfind
    rw [bdt_asset_unchanged env changes filePath visited hvis hacc hjs hfind2]
    simp [noFalseAffected, noFalseAffectedList]
  · intro filePath visited hvis hacc _ hncond hnotasset
    by_cases hjs : env.isJs filePath = true
    · have hig : env.shouldIgnore filePath = true := by
        by_cases hig : env.shouldIgnore filePath = true
        · exact hig
        · exfalso
          apply hncond
          constructor
          · show (if h : env.isJs filePath = true then FileType.js
              else FileType.asset) = FileType.js
            simp [hjs]
          · simpa using hig
      rw [bdt_ignored env changes filePath visited hvis hacc hjs hig]
      rcases hfind : changes.find? (fun c => c.changedFile == filePath) with _ | ch
      · simp [hfind, noFalseAffected, noFalseAffectedList]
      · simp [hfind, noFalseAffected, noFalseAffectedList]
    · exfalso
      apply hnotasset
      show (if h : env.isJs filePath = true then FileType.js
        else FileType.asset) = FileType.asset
      simp [hjs]
  · intro filePath visited hvis hacc
    rw [bdt_inaccessible env changes filePath visited hvis hacc]
    simp [inaccessibleNode, noFalseAffected, noFalseAffectedList]
  · intro fromFile visited c hc
    rw [buildChildren] at hc
    simp at hc
  · intro fromFile visited imp rest resolvedSource hres haccr child visitedA hb
      children visited2 hbc ih1 ih2 c hc
    rw [buildChildren] at hc
    simp only [hres, haccr, if_pos, hb, hbc, List.mem_cons] at hc
    rcases hc with hc | hc
    · rw [hc]
      have := ih1
      rw [hb] at this
      exact this
    · have hbc2 : buildChildren env changes fromFile rest (visitedA ++ visited) =
          (children, visited2) := hbc
      rw [hbc2] at ih2
      exact ih2 c hc
  · intro fromFile visited imp rest resolvedSource hres haccr ih c hc
    rw [buildChildren] at hc
    simp only [hres, haccr, if_neg] at hc
    exact ih c hc
  · intro fromFile visited imp rest hres ih c hc
    rw [buildChildren] at hc
    simp only [hres] at hc
    exact ih c hc

/-- Exactly when the builder sets `isAffected` (always to `true`): a fresh
accessible asset matching a change, or a fresh accessible parsed js file
with a non-empty classifier result. -/
theorem bdt_affected_iff (env : Env) (changes : List FileChange)
    (filePath : String) (visited : List String) :
    (buildDependencyTree env changes filePath visited).1.isAffected = some true ↔
      (filePath ∉ visited ∧ filePath ∈ env.accessible ∧
        ((env.isJs filePath = false ∧
            changes.find? (fun c => c.changedFile == filePath) ≠ none) ∨
         (env.isJs filePath = true ∧ env.shouldIgnore filePath = false ∧
          ∃ imports exports, env.parse filePath = some (imports, exports) ∧
            (determineAffectingChanges env filePath changes imports).isEmpty =
              false))) := by
  by_cases hvis : filePath ∈ visited
  · rw [bdt_visited env changes filePath visited hvis]
    simp [stubNode, FileNode.isAffected, hvis]
  · by_cases hacc : filePath ∈ env.accessible
    · rcases hjs : env.isJs filePath with _ | _
      · rcases hfind : changes.find? (fun c => c.changedFile == filePath) with _ | ch
        · rw [bdt_asset_unchanged env changes filePath visited hvis hacc hjs hfind]
          simp [FileNode.isAffected, hvis, hacc, hjs, hfind]
        · rw [bdt_asset_changed env changes filePath visited ch hvis hacc hjs hfind]
          simp [FileNode.isAffected, hvis, hacc, hjs, hfind]
      · rcases hig : env.shouldIgnore filePath with _ | _
        · rcases hp : env.parse filePath with _ | ⟨imports, exports⟩
          · rw [bdt_parse_failed env changes filePath visited hvis hacc hjs hig hp]
            simp [FileNode.isAffected, hvis, hacc, hjs, hig, hp]
          · rw [bdt_parsed env changes filePath visited imports exports hvis hacc hjs
              hig hp]
            by_cases hemp :
                (determineAffectingChanges env filePath changes imports).isEmpty
            · simp only [FileNode.isAffected, hvis, hacc, hjs, hig, hp, hemp]
              simp [hvis, hacc, List.isEmpty_iff.mp hemp]
            · have hne : (determineAffectingChanges env filePath changes
                  imports).isEmpty = false := by
                rcases h :
                  (determineAffectingChanges env filePath changes imports).isEmpty
                · rfl
                · exact absurd h hemp
              simp [FileNode.isAffected, hvis, hacc, hjs, hig, hp, if_neg hemp,
                hne]
              intro h
              rw [h] at hne
              simp at hne
        · rw [bdt_ignored env changes filePath visited hvis hacc hjs hig]
          simp [FileNode.isAffected, hvis, hacc, hjs, hig]
    · rw [bdt_inaccessible env changes filePath visited hvis hacc]
      simp [inaccessibleNode, FileNode.isAffected, hvis, hacc]

/-! ### Concrete projects used as test fixtures -/

/-- Diamond project: `/e.ts` imports `/a.ts` and `/b.ts`, both of
which import `/c.ts`, which imports `/d.ts`. -/
def diamondEnv : Env where
  accessible := ["/e.ts", "/a.ts", "/b.ts", "/c.ts", "/d.ts"]
  isJs := fun _ => true
  shouldIgnore := fun _ => false
  resolve := fun f s =>
    if f = "/e.ts" ∧ s = "./a" then some "/a.ts"
    else if f = "/e.ts" ∧ s = "./b" then some "/b.ts"
    else if (f = "/a.ts" ∨ f = "/b.ts") ∧ s = "./c" then some "/c.ts"
    else if f = "/c.ts" ∧ s = "./d" then some "/d.ts"
    else none
  parse := fun p =>
    if p = "/e.ts" then some ([⟨"./a", []⟩, ⟨"./b", []⟩], [])
    else if p = "/a.ts" then some ([⟨"./c", ["cf"]⟩], ["af"])
    else if p = "/b.ts" then some ([⟨"./c", ["cf"]⟩], ["bf"])
    else if p = "/c.ts" then some ([⟨"./d", []⟩], ["cf"])
    else if p = "/d.ts" then some ([], ["df"])
    else none

/-- Cyclic project: `/a.ts` imports `/b.ts` and `/b.ts` imports `/a.ts`. -/
def cycleEnv : Env where
  accessible := ["/a.ts", "/b.ts"]
  isJs := fun _ => true
  shouldIgnore := fun _ => false
  resolve := fun f s =>
    if f = "/a.ts" ∧ s = "./b" then some "/b.ts"
    else if f = "/b.ts" ∧ s = "./a" then some "/a.ts"
    else none
  parse := fun p =>
    if p = "/a.ts" then some ([⟨"./b", ["bf"]⟩], ["af"])
    else if p = "/b.ts" then some ([⟨"./a", ["af"]⟩], ["bf"])
    else none

/-- Fine-grained-modify project: `/x.ts` exports `foo` and `bar`;
`/y.ts` imports only `bar` from it, `/z.ts` imports only `foo`. -/
def modEnv : Env where
  accessible := ["/x.ts", "/y.ts", "/z.ts"]
  isJs := fun _ => true
  shouldIgnore := fun _ => false
  resolve := fun f s =>
    if (f = "/y.ts" ∨ f = "/z.ts") ∧ s = "./x" then some "/x.ts"
    else none
  parse := fun p =>
    if p = "/x.ts" then some ([], ["foo", "bar"])
    else if p = "/y.ts" then some ([⟨"./x", ["bar"]⟩], ["yf"])
    else if p = "/z.ts" then some ([⟨"./x", ["foo"]⟩], ["zf"])
    else none

/-- `/x.ts` was modified and only its export `foo` changed. -/
def modChanges : List FileChange :=
  [⟨"/x.ts", ChangeType.modify, some ["foo"]⟩]

/-- As `modChanges`, with `/z.ts` itself also modified (no export diff):
`/z.ts` is then both a changed file and an importer of a changed file. -/
def bothChanges : List FileChange :=
  [⟨"/x.ts", ChangeType.modify, some ["foo"]⟩,
   ⟨"/z.ts", ChangeType.modify, none⟩]

/-- As `modChanges`, with `/y.ts` itself also modified: `/y.ts` is changed
but none of the exports it imports from `/x.ts` changed. -/
def changedUnaffected : List FileChange :=
  [⟨"/x.ts", ChangeType.modify, some ["foo"]⟩,
   ⟨"/y.ts", ChangeType.modify, none⟩]

/-- Project with an asset: `/m.ts` imports a stylesheet-like binary
`/logo.png`, an unresolvable package, a missing file `/gone.ts`, and a
second js module `/k.ts`. -/
def assetEnv : Env where
  isJs := fun p => p != "/logo.png"
  accessible := ["/m.ts", "/logo.png", "/k.ts", "/bad.ts"]
  shouldIgnore := fun _ => false
  resolve := fun f s =>
    if f = "/m.ts" ∧ s = "./logo.png" then some "/logo.png"
    else if f = "/m.ts" ∧ s = "./gone" then some "/gone.ts"
    else if f = "/m.ts" ∧ s = "./k" then some "/k.ts"
    else none
  parse := fun p =>
    if p = "/m.ts" then
      some ([⟨"./logo.png", []⟩, ⟨"react", ["useState"]⟩, ⟨"./gone", ["g"]⟩,
        ⟨"./k", ["kf"]⟩], ["mf"])
    else if p = "/k.ts" then some ([], ["kf"])
    else none

/-- The png asset was deleted. -/
def assetChanges : List FileChange :=
  [⟨"/logo.png", ChangeType.delete, none⟩]

/-! ### The claims -/

/-- C1, counterexample: in the diamond project (`/e.ts` imports `/a.ts`
and `/b.ts`, both import `/c.ts`, `/c.ts` imports `/d.ts`), the second
parent to reach `/c.ts` does NOT get a full child node: its `/c.ts` child
is the childless stub with no imports, exports or annotations, and without
the `/d.ts` subtree. -/
theorem c1_diamond_counterexample :
    ((buildDependencyTree diamondEnv [] "/e.ts" []).1.children.getD 1
      (inaccessibleNode "")).children =
      [FileNode.mk "/c.ts" FileType.js none none none none none []] := by
  simp [buildDependencyTree, buildChildren, diamondEnv,
    determineAffectingChanges, stubNode, FileNode.children]

/-- C1, amended: in a diamond dependency, the parent through which `/c.ts`
is reached first gets a full child node for it (with its `/d.ts` subtree
populated), while the other parent gets a childless stub; only the first
encounter populates the subtree. -/
theorem c1_diamond_amended :
    (buildDependencyTree diamondEnv [] "/e.ts" []).1 =
      FileNode.mk "/e.ts" FileType.js
        (some [⟨"./a", []⟩, ⟨"./b", []⟩]) (some []) none none none
        [FileNode.mk "/a.ts" FileType.js
          (some [⟨"./c", ["cf"]⟩]) (some ["af"]) none none none
          [FileNode.mk "/c.ts" FileType.js
            (some [⟨"./d", []⟩]) (some ["cf"]) none none none
            [FileNode.mk "/d.ts" FileType.js (some []) (some ["df"])
              none none none []]],
         FileNode.mk "/b.ts" FileType.js
          (some [⟨"./c", ["cf"]⟩]) (some ["bf"]) none none none
          [FileNode.mk "/c.ts" FileType.js none none none none none []]] := by
  simp [buildDependencyTree, buildChildren, diamondEnv,
    determineAffectingChanges, stubNode]

/-- C2: for a `modify` change with a non-empty modified-exports set,
an import of the changed file is affecting exactly when the intersection of
its specifiers with the modified exports is non-empty, and that
intersection is recorded; concretely, `/y.ts` (importing only `bar` from
the changed `/x.ts` whose `foo` changed) is not marked affected, while
`/z.ts` (importing `foo`) is marked affected with a reason naming `foo`. -/
theorem c2_fine_grained_modify (env : Env) (filePath : String)
    (c : FileChange) (imp : ImportInfo)
    (hmod : c.changeType = ChangeType.modify) (hmods : c.hasMods = true)
    (hres : env.resolve filePath imp.source = some c.changedFile) :
    (determineAffectingChanges env filePath [c] [imp] =
      if (imp.specifiers.filter (fun s => s ∈ c.mods)).isEmpty then []
      else [⟨c, imp.specifiers.filter (fun s => s ∈ c.mods)⟩])
    ∧ (¬ determineAffectingChanges env filePath [c] [imp] = [] ↔
        ¬ (imp.specifiers.filter (fun s => s ∈ c.mods)).isEmpty = true)
    ∧ (buildDependencyTree modEnv modChanges "/y.ts" []).1.isAffected = none
    ∧ (buildDependencyTree modEnv modChanges "/z.ts" []).1.isAffected = some true
    ∧ (buildDependencyTree modEnv modChanges "/z.ts" []).1.reason =
        some "Modified exports from \x27x.ts\x27: foo" := by
  have h1 : determineAffectingChanges env filePath [c] [imp] =
      if (imp.specifiers.filter (fun s => s ∈ c.mods)).isEmpty then []
      else [⟨c, imp.specifiers.filter (fun s => s ∈ c.mods)⟩] := by
    rw [affecting_eq_flatMap]
    by_cases hemp : (imp.specifiers.filter (fun s => s ∈ c.mods)).isEmpty
    · simp [classifyEntry, hres, hmod, hmods, hemp]
    · simp [classifyEntry, hres, hmod, hmods, hemp]
  refine ⟨h1, ?_, ?_, ?_, ?_⟩
  · rw [h1]
    by_cases hemp : (imp.specifiers.filter (fun s => s ∈ c.mods)).isEmpty
    · simp [hemp]
    · simp [hemp]
  · simp [buildDependencyTree, buildChildren, modEnv, modChanges,
      determineAffectingChanges, FileNode.isAffected, FileChange.hasMods,
      FileChange.mods, stubNode]
  · simp [buildDependencyTree, buildChildren, modEnv, modChanges,
      determineAffectingChanges, FileNode.isAffected, FileChange.hasMods,
      FileChange.mods, stubNode]
  · simp [buildDependencyTree, buildChildren, modEnv, modChanges,
      determineAffectingChanges, determineImpactReason, reasonLine, basename,
      FileNode.reason, FileChange.hasMods, FileChange.mods, stubNode]
    decide

/-- C2 witness: the fine-grained rule applied at a concrete import of a
concretely modified file. -/
theorem c2_fine_grained_modify_witness :
    determineAffectingChanges modEnv "/z.ts" modChanges [⟨"./x", ["foo"]⟩] =
      if ((["foo"] : List String).filter
          (fun s => s ∈ (⟨"/x.ts", ChangeType.modify, some ["foo"]⟩ :
            FileChange).mods)).isEmpty then []
      else [⟨⟨"/x.ts", ChangeType.modify, some ["foo"]⟩,
        (["foo"] : List String).filter
          (fun s => s ∈ (⟨"/x.ts", ChangeType.modify, some ["foo"]⟩ :
            FileChange).mods)⟩] :=
  (c2_fine_grained_modify modEnv "/z.ts"
    ⟨"/x.ts", ChangeType.modify, some ["foo"]⟩ ⟨"./x", ["foo"]⟩
    rfl (by decide) (by simp [modEnv])).1

/-- C3: the analysis fails exactly when the entry file is inaccessible
before traversal; a file found inaccessible during traversal degrades to
an asset leaf, and a parse failure degrades to a node without imports,
exports or children — in both cases a tree is still returned. -/
theorem c3_entry_failure_only (env : Env) (entryFile : String)
    (changes : List FileChange) (filePath : String) (visited : List String)
    (hvis : filePath ∉ visited) :
    ((∃ e, analyzeProject env entryFile changes = Except.error e) ↔
      entryFile ∉ env.accessible)
    ∧ (entryFile ∈ env.accessible →
        analyzeProject env entryFile changes =
          Except.ok (buildDependencyTree env changes entryFile []).1)
    ∧ (filePath ∉ env.accessible →
        buildDependencyTree env changes filePath visited =
          (inaccessibleNode filePath, filePath :: visited))
    ∧ (filePath ∈ env.accessible → env.isJs filePath = true →
        env.shouldIgnore filePath = false → env.parse filePath = none →
        buildDependencyTree env changes filePath visited =
          (FileNode.mk filePath FileType.js none none none
            ((changes.find? (fun c => c.changedFile == filePath)).map
              FileChange.changeType)
            ((changes.find? (fun c => c.changedFile == filePath)).map
              (fun c => "File was " ++ c.changeType.str ++ "d"))
            [], filePath :: visited)) := by
  refine ⟨?_, ?_, ?_, ?_⟩
  · by_cases hacc : entryFile ∈ env.accessible
    · simp [analyzeProject, hacc]
    · simp [analyzeProject, hacc]
  · intro hacc
    simp [analyzeProject, hacc]
  · intro hacc
    exact bdt_inaccessible env changes filePath visited hvis hacc
  · intro hacc hjs hig hp
    exact bdt_parse_failed env changes filePath visited hvis hacc hjs hig hp

/-- C3 witness: a missing entry aborts; an accessible entry returns a
tree; a missing file and an unparsable file degrade to leaves. -/
theorem c3_entry_failure_only_witness :
    (∃ e, analyzeProject assetEnv "/nope.ts" assetChanges = Except.error e)
    ∧ analyzeProject assetEnv "/m.ts" assetChanges =
        Except.ok (buildDependencyTree assetEnv assetChanges "/m.ts" []).1
    ∧ buildDependencyTree assetEnv assetChanges "/nope.ts" [] =
        (inaccessibleNode "/nope.ts", ["/nope.ts"])
    ∧ buildDependencyTree assetEnv assetChanges "/bad.ts" [] =
        (FileNode.mk "/bad.ts" FileType.js none none none
          ((assetChanges.find? (fun c => c.changedFile == "/bad.ts")).map
            FileChange.changeType)
          ((assetChanges.find? (fun c => c.changedFile == "/bad.ts")).map
            (fun c => "File was " ++ c.changeType.str ++ "d"))
          [], ["/bad.ts"]) := by
  have h1 := c3_entry_failure_only assetEnv "/nope.ts" assetChanges "/nope.ts" []
    (by decide)
  have h2 := c3_entry_failure_only assetEnv "/m.ts" assetChanges "/bad.ts" []
    (by decide)
  refine ⟨h1.1.mpr (by decide), h2.2.1 (by decide), h1.2.2.1 (by decide),
    h2.2.2.2 (by decide) (by decide) (by decide) (by simp [assetEnv])⟩

/-- C4: a revisited file always yields the childless stub — same `file`,
extension-classified `type`, no imports, exports, isAffected, changeType
or reason — and on the cyclic project `/a.ts` ↔ `/b.ts` the build
terminates with the cycle cut by exactly such a stub. -/
theorem c4_cycle_stub (env : Env) (changes : List FileChange)
    (filePath : String) (visited : List String) (hvis : filePath ∈ visited) :
    buildDependencyTree env changes filePath visited =
      (FileNode.mk filePath
        (if env.isJs filePath then FileType.js else FileType.asset)
        none none none none none [], visited)
    ∧ (buildDependencyTree cycleEnv [] "/a.ts" []).1 =
        FileNode.mk "/a.ts" FileType.js
          (some [⟨"./b", ["bf"]⟩]) (some ["af"]) none none none
          [FileNode.mk "/b.ts" FileType.js
            (some [⟨"./a", ["af"]⟩]) (some ["bf"]) none none none
            [FileNode.mk "/a.ts" FileType.js none none none none none []]] := by
  constructor
  · exact bdt_visited env changes filePath visited hvis
  · simp [buildDependencyTree, buildChildren, cycleEnv,
      determineAffectingChanges, stubNode]

/-- C4 witness: the stub shape at a concrete revisited path. -/
theorem c4_cycle_stub_witness :
    buildDependencyTree cycleEnv [] "/b.ts" ["/b.ts", "/a.ts"] =
      (FileNode.mk "/b.ts"
        (if cycleEnv.isJs "/b.ts" then FileType.js else FileType.asset)
        none none none none none [], ["/b.ts", "/a.ts"]) :=
  (c4_cycle_stub cycleEnv [] "/b.ts" ["/b.ts", "/a.ts"] (by decide)).1

/-- C5: for an `add` or `delete` change, or a `modify` without export-diff
information, every import whose resolved path equals the changed file is
unconditionally affecting, and the recorded specifiers are the import's
full specifier set. -/
theorem c5_coarse_grained (env : Env) (filePath : String) (c : FileChange)
    (imports : List ImportInfo)
    (hcoarse : c.changeType = ChangeType.add ∨
      c.changeType = ChangeType.delete ∨
      (c.changeType = ChangeType.modify ∧ c.hasMods = false)) :
    determineAffectingChanges env filePath [c] imports =
      (imports.filter
        (fun imp => env.resolve filePath imp.source == some c.changedFile)).map
        (fun imp => ⟨c, imp.specifiers⟩) := by
  have hnotfine : ¬(c.changeType = ChangeType.modify ∧ c.hasMods = true) := by
    rcases hcoarse with h | h | ⟨h1, h2⟩
    · intro hx
      rw [h] at hx
      exact absurd hx.1 (by decide)
    · intro hx
      rw [h] at hx
      exact absurd hx.1 (by decide)
    · intro hx
      rw [h2] at hx
      exact absurd hx.2 (by decide)
  rw [affecting_eq_flatMap]
  simp only [List.flatMap_cons, List.flatMap_nil, List.append_nil]
  induction imports with
  | nil => simp
  | cons imp rest ih =>
    simp only [List.filterMap_cons, List.filter_cons]
    rcases hres : env.resolve filePath imp.source with _ | rs
    · simp only [classifyEntry, hres]
      simp [ih]
    · by_cases heq : rs = c.changedFile
      · simp only [classifyEntry, hres]
        simp [heq, hnotfine, ih]
      · simp only [classifyEntry, hres]
        simp [heq, hnotfine, ih]

/-- C5 witness: the delete of `/logo.png` marks the importing `/m.ts`
through its full (empty) specifier set, regardless of specifiers. -/
theorem c5_coarse_grained_witness :
    determineAffectingChanges assetEnv "/m.ts"
      [⟨"/logo.png", ChangeType.delete, none⟩]
      [⟨"./logo.png", []⟩, ⟨"react", ["useState"]⟩, ⟨"./gone", ["g"]⟩,
        ⟨"./k", ["kf"]⟩] =
      (([⟨"./logo.png", []⟩, ⟨"react", ["useState"]⟩, ⟨"./gone", ["g"]⟩,
        ⟨"./k", ["kf"]⟩] : List ImportInfo).filter
        (fun imp => assetEnv.resolve "/m.ts" imp.source ==
          some (⟨"/logo.png", ChangeType.delete, none⟩ :
            FileChange).changedFile)).map
        (fun imp => ⟨⟨"/logo.png", ChangeType.delete, none⟩,
          imp.specifiers⟩) :=
  c5_coarse_grained assetEnv "/m.ts" ⟨"/logo.png", ChangeType.delete, none⟩
    [⟨"./logo.png", []⟩, ⟨"react", ["useState"]⟩, ⟨"./gone", ["g"]⟩,
      ⟨"./k", ["kf"]⟩]
    (Or.inr (Or.inl rfl))

/-- C6: a parsed js file that is both in the Change Set and affected
through its imports keeps the `changeType` stamped from its own change
but has its default changed-file reason replaced by the classifier's
own import-impact reason. -/
theorem c6_reason_overwritten (env : Env) (changes : List FileChange)
    (filePath : String) (visited : List String) (ch : FileChange)
    (imports : List ImportInfo) (exports : List String)
    (hvis : filePath ∉ visited) (hacc : filePath ∈ env.accessible)
    (hjs : env.isJs filePath = true) (hig : env.shouldIgnore filePath = false)
    (hp : env.parse filePath = some (imports, exports))
    (hfind : changes.find? (fun c => c.changedFile == filePath) = some ch)
    (haff : (determineAffectingChanges env filePath changes imports).isEmpty =
      false) :
    (buildDependencyTree env changes filePath visited).1.changeType =
      some ch.changeType
    ∧ (buildDependencyTree env changes filePath visited).1.reason =
        some (determineImpactReason filePath
          (determineAffectingChanges env filePath changes imports) imports) := by
  rw [bdt_parsed env changes filePath visited imports exports hvis hacc hjs hig hp]
  simp [FileNode.changeType, FileNode.reason, hfind, haff]

/-- C6 witness: `/z.ts` is itself modified and also imports the
modified export `foo` of `/x.ts`; its node keeps `changeType = modify`
and carries the import-impact reason instead of the default one. -/
theorem c6_reason_overwritten_witness :
    (buildDependencyTree modEnv bothChanges "/z.ts" []).1.changeType =
      some (⟨"/z.ts", ChangeType.modify, none⟩ : FileChange).changeType
    ∧ (buildDependencyTree modEnv bothChanges "/z.ts" []).1.reason =
        some (determineImpactReason "/z.ts"
          (determineAffectingChanges modEnv "/z.ts" bothChanges
            [⟨"./x", ["foo"]⟩]) [⟨"./x", ["foo"]⟩]) :=
  c6_reason_overwritten modEnv bothChanges "/z.ts" []
    ⟨"/z.ts", ChangeType.modify, none⟩ [⟨"./x", ["foo"]⟩] ["zf"]
    (by decide) (by decide) (by decide) (by decide) (by simp [modEnv])
    (by decide) (by decide)

/-- C7: the reason of an affected node is the newline-join of one line per
affecting entry, in the order the classifier produced them — Change-Set
order first, import declaration order second — with exactly the four
per-kind templates. -/
theorem c7_reason_format (env : Env) (filePath : String)
    (changes : List FileChange) (imports : List ImportInfo)
    (affectingChanges : List AffectingImport) (imports2 : List ImportInfo) :
    determineImpactReason filePath affectingChanges imports2 =
      String.intercalate "\n" (affectingChanges.map reasonLine)
    ∧ determineAffectingChanges env filePath changes imports =
        changes.flatMap
          (fun change => imports.filterMap (classifyEntry env filePath change))
    ∧ (∀ e : AffectingImport, e.change.changeType = ChangeType.delete →
        reasonLine e =
          "Imported file \x27" ++ basename e.change.changedFile ++
            "\x27 was deleted")
    ∧ (∀ e : AffectingImport, e.change.changeType = ChangeType.add →
        reasonLine e =
          "New file \x27" ++ basename e.change.changedFile ++
            "\x27 was added that is imported")
    ∧ (∀ e : AffectingImport, e.change.changeType = ChangeType.modify →
        e.change.hasMods = true → e.importedSpecifiers.isEmpty = false →
        reasonLine e =
          "Modified exports from \x27" ++ basename e.change.changedFile ++
            "\x27: " ++ String.intercalate ", " e.importedSpecifiers)
    ∧ (∀ e : AffectingImport, e.change.changeType = ChangeType.modify →
        (e.change.hasMods = false ∨ e.importedSpecifiers.isEmpty = true) →
        reasonLine e =
          "File \x27" ++ basename e.change.changedFile ++
            "\x27 content was modified") := by
  refine ⟨impactReason_eq_join filePath affectingChanges imports2,
    affecting_eq_flatMap env filePath changes imports, ?_, ?_, ?_, ?_⟩
  · intro e h
    simp [reasonLine, h]
  · intro e h
    simp [reasonLine, h]
  · intro e h hm hs
    simp [reasonLine, h, hm, hs]
  · intro e h hcase
    rcases hcase with hm | hs
    · simp [reasonLine, h, hm]
    · simp [reasonLine, h, hs]

/-- C7 witness: the join shape and the delete template at concrete
entries of all four kinds. -/
theorem c7_reason_format_witness :
    determineImpactReason "/m.ts"
      [⟨⟨"/logo.png", ChangeType.delete, none⟩, []⟩,
       ⟨⟨"/n.ts", ChangeType.add, none⟩, ["nf"]⟩,
       ⟨⟨"/x.ts", ChangeType.modify, some ["foo"]⟩, ["foo"]⟩,
       ⟨⟨"/w.ts", ChangeType.modify, none⟩, ["wf"]⟩] [] =
      String.intercalate "\n"
        (([⟨⟨"/logo.png", ChangeType.delete, none⟩, []⟩,
           ⟨⟨"/n.ts", ChangeType.add, none⟩, ["nf"]⟩,
           ⟨⟨"/x.ts", ChangeType.modify, some ["foo"]⟩, ["foo"]⟩,
           ⟨⟨"/w.ts", ChangeType.modify, none⟩, ["wf"]⟩] :
          List AffectingImport).map reasonLine)
    ∧ reasonLine ⟨⟨"/logo.png", ChangeType.delete, none⟩, []⟩ =
        "Imported file \x27" ++ basename "/logo.png" ++ "\x27 was deleted" := by
  have h := c7_reason_format modEnv "/m.ts" [] []
    [⟨⟨"/logo.png", ChangeType.delete, none⟩, []⟩,
     ⟨⟨"/n.ts", ChangeType.add, none⟩, ["nf"]⟩,
     ⟨⟨"/x.ts", ChangeType.modify, some ["foo"]⟩, ["foo"]⟩,
     ⟨⟨"/w.ts", ChangeType.modify, none⟩, ["wf"]⟩] []
  exact ⟨h.1, h.2.2.1 ⟨⟨"/logo.png", ChangeType.delete, none⟩, []⟩ rfl⟩

/-- C8: the children of a parsed node are exactly one per import whose
specifier resolves to an accessible path, in import declaration order;
unresolved specifiers and inaccessible resolved targets contribute
nothing and do not disturb the order of the rest. -/
theorem c8_children_in_order (env : Env) (changes : List FileChange)
    (filePath : String) (visited : List String) (imports : List ImportInfo)
    (exports : List String)
    (hvis : filePath ∉ visited) (hacc : filePath ∈ env.accessible)
    (hjs : env.isJs filePath = true) (hig : env.shouldIgnore filePath = false)
    (hp : env.parse filePath = some (imports, exports)) :
    ((buildDependencyTree env changes filePath visited).1.children).map
      FileNode.file = imports.filterMap (childTarget env filePath)
    ∧ (∀ imp : ImportInfo, env.resolve filePath imp.source = none →
        childTarget env filePath imp = none)
    ∧ (∀ (imp : ImportInfo) (r : String),
        env.resolve filePath imp.source = some r → r ∉ env.accessible →
        childTarget env filePath imp = none)
    ∧ (∀ (imp : ImportInfo) (r : String),
        env.resolve filePath imp.source = some r → r ∈ env.accessible →
        childTarget env filePath imp = some r) := by
  refine ⟨?_, ?_, ?_, ?_⟩
  · rw [bdt_parsed env changes filePath visited imports exports hvis hacc hjs
      hig hp]
    simp only [FileNode.children]
    exact buildChildren_files env changes filePath imports (filePath :: visited)
  · intro imp h
    simp [childTarget, h]
  · intro imp r h hr
    simp [childTarget, h, hr]
  · intro imp r h hr
    simp [childTarget, h, hr]

/-- C8 witness: `/m.ts` has four imports; the unresolved `react` and the
inaccessible `/gone.ts` are skipped, leaving the children
`/logo.png` and `/k.ts` in declaration order. -/
theorem c8_children_in_order_witness :
    ((buildDependencyTree assetEnv assetChanges "/m.ts" []).1.children).map
      FileNode.file =
      ([⟨"./logo.png", []⟩, ⟨"react", ["useState"]⟩, ⟨"./gone", ["g"]⟩,
        ⟨"./k", ["kf"]⟩] : List ImportInfo).filterMap
        (childTarget assetEnv "/m.ts") :=
  (c8_children_in_order assetEnv assetChanges "/m.ts" []
    [⟨"./logo.png", []⟩, ⟨"react", ["useState"]⟩, ⟨"./gone", ["g"]⟩,
      ⟨"./k", ["kf"]⟩] ["mf"]
    (by decide) (by decide) (by decide) (by decide) (by simp [assetEnv])).1

/-- C9: in every node of every tree the builder returns — and in every
successful analysis result — `isAffected` is either absent or `true`;
it is never set to `false`. -/
theorem c9_no_false_affected (env : Env) (changes : List FileChange)
    (filePath : String) (visited : List String) (entryFile : String)
    (t : FileNode)
    (hok : analyzeProject env entryFile changes = Except.ok t) :
    noFalseAffected (buildDependencyTree env changes filePath visited).1 = true
    ∧ noFalseAffected t = true := by
  refine ⟨bdt_noFalseAffected env changes filePath visited, ?_⟩
  by_cases hacc : entryFile ∈ env.accessible
  · rw [analyzeProject, if_pos hacc] at hok
    have ht : t = (buildDependencyTree env changes entryFile []).1 := by
      cases hok
      rfl
    rw [ht]
    exact bdt_noFalseAffected env changes entryFile []
  · rw [analyzeProject, if_neg hacc] at hok
    cases hok

/-- C9 witness: the invariant at the concrete cyclic and asset projects. -/
theorem c9_no_false_affected_witness :
    noFalseAffected (buildDependencyTree cycleEnv [] "/a.ts" []).1 = true
    ∧ noFalseAffected
        (buildDependencyTree assetEnv assetChanges "/m.ts" []).1 = true :=
  ⟨(c9_no_false_affected cycleEnv [] "/a.ts" [] "/a.ts"
      (buildDependencyTree cycleEnv [] "/a.ts" []).1
      (by simp [analyzeProject, cycleEnv])).1,
   (c9_no_false_affected assetEnv assetChanges "/m.ts" [] "/m.ts"
      (buildDependencyTree assetEnv assetChanges "/m.ts" []).1
      (by simp [analyzeProject, assetEnv])).1⟩

/-- C10: `isAffected = some true` arises exactly for a fresh accessible
asset matching a Change-Set entry (which then carries the generic asset
reason and no children, for any change kind) or a fresh accessible parsed
js file with a non-empty classifier result; a js file that is itself
changed but has no affecting imports keeps `isAffected` absent while still
carrying `changeType` and the default reason. -/
theorem c10_affected_exactly (env : Env) (changes : List FileChange)
    (filePath : String) (visited : List String) (ch : FileChange)
    (imports : List ImportInfo) (exports : List String)
    (hvis : filePath ∉ visited) :
    ((buildDependencyTree env changes filePath visited).1.isAffected =
        some true ↔
      (filePath ∉ visited ∧ filePath ∈ env.accessible ∧
        ((env.isJs filePath = false ∧
            changes.find? (fun c => c.changedFile == filePath) ≠ none) ∨
         (env.isJs filePath = true ∧ env.shouldIgnore filePath = false ∧
          ∃ imps exps, env.parse filePath = some (imps, exps) ∧
            (determineAffectingChanges env filePath changes imps).isEmpty =
              false))))
    ∧ (filePath ∈ env.accessible → env.isJs filePath = false →
        changes.find? (fun c => c.changedFile == filePath) = some ch →
        buildDependencyTree env changes filePath visited =
          (FileNode.mk filePath FileType.asset none none (some true)
            (some ch.changeType)
            (some ("Asset file was " ++ ch.changeType.str ++ "d")) [],
           filePath :: visited))
    ∧ (filePath ∈ env.accessible → env.isJs filePath = true →
        env.shouldIgnore filePath = false →
        env.parse filePath = some (imports, exports) →
        changes.find? (fun c => c.changedFile == filePath) = some ch →
        (determineAffectingChanges env filePath changes imports).isEmpty =
          true →
        (buildDependencyTree env changes filePath visited).1.isAffected = none
        ∧ (buildDependencyTree env changes filePath visited).1.changeType =
            some ch.changeType
        ∧ (buildDependencyTree env changes filePath visited).1.reason =
            some ("File was " ++ ch.changeType.str ++ "d")) := by
  refine ⟨bdt_affected_iff env changes filePath visited, ?_, ?_⟩
  · intro hacc hjs hfind
    exact bdt_asset_changed env changes filePath visited ch hvis hacc hjs hfind
  · intro hacc hjs hig hp hfind hemp
    rw [bdt_parsed env changes filePath visited imports exports hvis hacc hjs
      hig hp]
    simp [FileNode.isAffected, FileNode.changeType, FileNode.reason, hfind,
      hemp]

/-- C10 witness: the deleted asset `/logo.png` is affected with the
generic asset reason and no children, and the changed-but-unaffected
`/y.ts` keeps `isAffected` absent with its default reason. -/
theorem c10_affected_exactly_witness :
    buildDependencyTree assetEnv assetChanges "/logo.png" [] =
      (FileNode.mk "/logo.png" FileType.asset none none (some true)
        (some (⟨"/logo.png", ChangeType.delete, none⟩ : FileChange).changeType)
        (some ("Asset file was " ++
          (⟨"/logo.png", ChangeType.delete, none⟩ :
            FileChange).changeType.str ++ "d")) [],
       ["/logo.png"])
    ∧ ((buildDependencyTree modEnv changedUnaffected "/y.ts" []).1.isAffected =
        none
      ∧ (buildDependencyTree modEnv changedUnaffected "/y.ts" []).1.changeType =
          some (⟨"/y.ts", ChangeType.modify, none⟩ : FileChange).changeType
      ∧ (buildDependencyTree modEnv changedUnaffected "/y.ts" []).1.reason =
          some ("File was " ++
            (⟨"/y.ts", ChangeType.modify, none⟩ :
              FileChange).changeType.str ++ "d")) :=
  ⟨(c10_affected_exactly assetEnv assetChanges "/logo.png" []
      ⟨"/logo.png", ChangeType.delete, none⟩ [] [] (by decide)).2.1
      (by decide) (by decide) (by decide),
   (c10_affected_exactly modEnv changedUnaffected "/y.ts" []
      ⟨"/y.ts", ChangeType.modify, none⟩ [⟨"./x", ["bar"]⟩] ["yf"]
      (by decide)).2.2
      (by decide) (by decide) (by decide) (by simp [modEnv]) (by decide)
      (by decide)⟩
